import Mathlib

/-!
Shallow embedding of the tps transaction-processing engine.

The embedding follows the Rust source:
  - src/clients.rs        : Client, check_client_validity, ClientPool (BTreeMap)
  - src/transactions/mod.rs        : TransactionType, Transaction
  - src/transactions/management.rs : TransactionTree (BTreeMap)
  - src/transactions/processing.rs : process_transactions and the five handlers

Modelling choices:
  - rust_decimal Decimal values are exact fixed-point decimals (4
    fractional digits in this program); we model an amount as the integer
    count of smallest currency units, which is order-isomorphic and
    faithful for the operations the code uses (addition, subtraction,
    comparison, equality).
  - BTreeMap is modelled as an association list with first-key lookup,
    replace-in-place insert, and append for fresh keys.  The handlers
    mutate through mutable references; we model each handler as a pure
    function that returns the handler result together with the final
    state of the pool (and, for the dispute family, of the tree), since
    the Rust code can leave mutations behind on the error path.
  - anyhow errors are modelled as strings (the source message without
    the interpolated ids).
-/

abbrev ClientId := Nat
abbrev TransactionId := Nat

/-- Client record from src/clients.rs. -/
@[ext]
structure Client where
  id : ClientId
  available : ℤ
  held : ℤ
  total : ℤ
  locked : Bool
deriving DecidableEq, Repr

/-- Client::new: zero balances, unlocked. -/
def Client.new (id : ClientId) : Client :=
  { id := id, available := 0, held := 0, total := 0, locked := false }

/-- Client::check_client_validity, with the early returns folded into
nested conditionals. -/
def Client.check_client_validity (c : Client) : Bool :=
  let zero_val : ℤ := 0
  let available_amount := c.total - c.held
  if c.available < zero_val ∨ available_amount ≠ c.available then false
  else
    let held_amount := c.total - c.available
    if c.held < zero_val ∨ held_amount ≠ c.held then false
    else
      let total_amount := c.available + c.held
      if c.total < zero_val ∨ total_amount ≠ c.total then false
      else true

/-- TransactionType from src/transactions/mod.rs. -/
inductive TransactionType
  | Deposit
  | Withdrawal
  | Dispute
  | Resolve
  | Chargeback
deriving DecidableEq, Repr

/-- Transaction record from src/transactions/mod.rs. -/
@[ext]
structure Transaction where
  tx_type : TransactionType
  client_id : ClientId
  tx_id : TransactionId
  amount : Option ℤ
  in_dispute : Bool
deriving DecidableEq, Repr

/-! Association-list model of BTreeMap, shared by the client pool and the
transaction tree.  get returns the value at the first matching key; set
replaces the value at an existing key and is the identity when the key is
absent; insert replaces at an existing key and appends a fresh key. -/

namespace MapList

def get {β : Type} : List (Nat × β) → Nat → Option β
  | [], _ => none
  | (k, v) :: rest, id => if k = id then some v else get rest id

def set {β : Type} : List (Nat × β) → Nat → β → List (Nat × β)
  | [], _, _ => []
  | (k, v) :: rest, id, w => if k = id then (k, w) :: rest else (k, v) :: set rest id w

def insertKV {β : Type} : List (Nat × β) → Nat → β → List (Nat × β)
  | [], id, w => [(id, w)]
  | (k, v) :: rest, id, w => if k = id then (k, w) :: rest else (k, v) :: insertKV rest id w

def allP {β : Type} (f : β → Bool) (m : List (Nat × β)) : Bool :=
  m.all fun kv => f kv.2

end MapList

abbrev ClientPool := List (ClientId × Client)

namespace ClientPool

/-- ClientPool::get_client / get_client_mut lookup. -/
def get_client (clients : ClientPool) (id : ClientId) : Option Client :=
  MapList.get clients id

/-- ClientPool::has_client (BTreeMap::contains_key; the Result wrapper in
the source is always Ok). -/
def has_client (clients : ClientPool) (id : ClientId) : Bool :=
  (get_client clients id).isSome

/-- ClientPool::add_client (BTreeMap::insert keyed by client.id). -/
def add_client (clients : ClientPool) (c : Client) : ClientPool :=
  MapList.insertKV clients c.id c

/-- Write-back of an in-place mutation performed through get_client_mut:
replace the client stored at the looked-up key. -/
def setc (clients : ClientPool) (id : ClientId) (c : Client) : ClientPool :=
  MapList.set clients id c

/-- Every client in the pool passes check_client_validity. -/
def allValid (clients : ClientPool) : Bool :=
  MapList.allP Client.check_client_validity clients

/-- The shared prelude of process_deposit and process_withdrawal: look the
client up and add a fresh zero-balance client when absent. -/
def ensure (clients : ClientPool) (id : ClientId) : ClientPool :=
  if has_client clients id then clients else add_client clients (Client.new id)

end ClientPool

abbrev TransactionTree := List (TransactionId × Transaction)

namespace TransactionTree

/-- TransactionTree::get / get_mut lookup. -/
def get (tr : TransactionTree) (id : TransactionId) : Option Transaction :=
  MapList.get tr id

/-- TransactionTree::contains (BTreeMap::contains_key). -/
def contains (tr : TransactionTree) (id : TransactionId) : Bool :=
  (get tr id).isSome

/-- TransactionTree::insert (BTreeMap::insert keyed by transaction.tx_id). -/
def insertT (tr : TransactionTree) (t : Transaction) : TransactionTree :=
  MapList.insertKV tr t.tx_id t

/-- Write-back of an in-place mutation performed through get_mut: replace
the transaction stored at the looked-up key. -/
def sett (tr : TransactionTree) (id : TransactionId) (t : Transaction) : TransactionTree :=
  MapList.set tr id t

end TransactionTree

/-! The five handlers from src/transactions/processing.rs.  Each returns
the Result of the Rust function together with the final state of the data
it mutates through mutable references (the pool, and for the dispute
family also the tree), including the states left behind on error paths. -/

/-- process_deposit. -/
def process_deposit (transaction : Transaction) (clients0 : ClientPool) :
    Except String Unit × ClientPool :=
  let clients := ClientPool.ensure clients0 transaction.client_id
  match ClientPool.get_client clients transaction.client_id with
  | none => (Except.error "client not found in pool", clients)
  | some client =>
    if client.locked then
      (Except.error "client is locked, cannot process deposit", clients)
    else
      match transaction.amount with
      | none => (Except.error "Error: Transaction amount was not provided", clients)
      | some deposit_amount =>
        if deposit_amount < 0 then
          (Except.error "Error: Deposit amount is negative", clients)
        else
          let client1 := { client with
            available := client.available + deposit_amount,
            total := client.total + deposit_amount }
          if client1.check_client_validity then
            (Except.ok (), ClientPool.setc clients transaction.client_id client1)
          else
            let client2 := { client1 with
              available := client1.available - deposit_amount,
              total := client1.total - deposit_amount }
            (Except.error "Error: Client is invalid after deposit",
              ClientPool.setc clients transaction.client_id client2)

/-- process_withdrawal. -/
def process_withdrawal (transaction : Transaction) (clients0 : ClientPool) :
    Except String Unit × ClientPool :=
  let clients := ClientPool.ensure clients0 transaction.client_id
  match ClientPool.get_client clients transaction.client_id with
  | none => (Except.error "client not found in pool", clients)
  | some client =>
    if client.locked then
      (Except.error "client is locked, cannot process withdrawal", clients)
    else
      match transaction.amount with
      | none => (Except.error "Error: Transaction amount was not provided", clients)
      | some withdrawal_amount =>
        if withdrawal_amount < 0 then
          (Except.error "Error: withdrawal amount is negative", clients)
        else if client.available < withdrawal_amount then
          (Except.error "Error: Client does not have enough available balance to withdraw",
            clients)
        else
          let client1 := { client with
            available := client.available - withdrawal_amount,
            total := client.total - withdrawal_amount }
          if client1.check_client_validity then
            (Except.ok (), ClientPool.setc clients transaction.client_id client1)
          else
            let client2 := { client1 with
              available := client1.available + withdrawal_amount,
              total := client1.total + withdrawal_amount }
            (Except.error "Error: Client is invalid after withdrawal",
              ClientPool.setc clients transaction.client_id client2)

/-- process_dispute. -/
def process_dispute (transaction : Transaction) (clients : ClientPool)
    (transaction_tree : TransactionTree) :
    Except String Unit × ClientPool × TransactionTree :=
  if ¬ ClientPool.has_client clients transaction.client_id then
    (Except.error "Error: Client not found in pool", clients, transaction_tree)
  else
    match TransactionTree.get transaction_tree transaction.tx_id with
    | none =>
      (Except.error "Error: Provided transaction has not been processed",
        clients, transaction_tree)
    | some found_transaction =>
      match ClientPool.get_client clients transaction.client_id with
      | none => (Except.error "Error: Client not found in pool", clients, transaction_tree)
      | some client =>
        if client.locked then
          (Except.error "client is locked, cannot process dispute",
            clients, transaction_tree)
        else
          match found_transaction.amount with
          | none =>
            (Except.error "Error: Transaction amount was not provided",
              clients, transaction_tree)
          | some dispute_amount =>
            if found_transaction.tx_type = TransactionType.Deposit then
              if client.available < dispute_amount then
                (Except.error "Error: Client does not have enough available balance to dispute",
                  clients, transaction_tree)
              else
                let client1 := { client with
                  available := client.available - dispute_amount,
                  held := client.held + dispute_amount }
                let found1 := { found_transaction with in_dispute := true }
                if client1.check_client_validity then
                  (Except.ok (),
                    ClientPool.setc clients transaction.client_id client1,
                    TransactionTree.sett transaction_tree transaction.tx_id found1)
                else
                  let client2 := { client1 with
                    available := client1.available + dispute_amount,
                    held := client1.held - dispute_amount }
                  let found2 := { found1 with in_dispute := false }
                  (Except.error "Error: Client is invalid after dispute",
                    ClientPool.setc clients transaction.client_id client2,
                    TransactionTree.sett transaction_tree transaction.tx_id found2)
            else
              (Except.ok (), clients, transaction_tree)

/-- process_resolve. -/
def process_resolve (transaction : Transaction) (clients : ClientPool)
    (transaction_tree : TransactionTree) :
    Except String Unit × ClientPool × TransactionTree :=
  if ¬ ClientPool.has_client clients transaction.client_id then
    (Except.error "Error: Client not found in pool", clients, transaction_tree)
  else
    match TransactionTree.get transaction_tree transaction.tx_id with
    | none =>
      (Except.error "Error: Provided transaction has not been processed",
        clients, transaction_tree)
    | some found_transaction =>
      match ClientPool.get_client clients transaction.client_id with
      | none => (Except.error "Error: Client not found in pool", clients, transaction_tree)
      | some client =>
        if client.locked then
          (Except.error "client is locked, cannot process resolve",
            clients, transaction_tree)
        else
          match found_transaction.amount with
          | none =>
            (Except.error "Error: Transaction amount was not provided",
              clients, transaction_tree)
          | some resolve_amount =>
            if found_transaction.tx_type = TransactionType.Deposit then
              if client.held < resolve_amount then
                (Except.error "Error: Client does not have enough held funds to resolve",
                  clients, transaction_tree)
              else if ¬ found_transaction.in_dispute then
                (Except.error "Error: Specified transaction is not in dispute",
                  clients, transaction_tree)
              else
                let client1 := { client with
                  available := client.available + resolve_amount,
                  held := client.held - resolve_amount }
                let found1 := { found_transaction with in_dispute := false }
                if client1.check_client_validity then
                  (Except.ok (),
                    ClientPool.setc clients transaction.client_id client1,
                    TransactionTree.sett transaction_tree transaction.tx_id found1)
                else
                  let client2 := { client1 with
                    available := client1.available - resolve_amount,
                    held := client1.held + resolve_amount }
                  let found2 := { found1 with in_dispute := true }
                  (Except.error "Error: Client is invalid after resolve",
                    ClientPool.setc clients transaction.client_id client2,
                    TransactionTree.sett transaction_tree transaction.tx_id found2)
            else
              (Except.ok (), clients, transaction_tree)

/-- process_chargeback. -/
def process_chargeback (transaction : Transaction) (clients : ClientPool)
    (transaction_tree : TransactionTree) :
    Except String Unit × ClientPool × TransactionTree :=
  if ¬ ClientPool.has_client clients transaction.client_id then
    (Except.error "Error: Client not found in pool", clients, transaction_tree)
  else
    match TransactionTree.get transaction_tree transaction.tx_id with
    | none =>
      (Except.error "Error: Provided transaction has not been processed",
        clients, transaction_tree)
    | some found_transaction =>
      match ClientPool.get_client clients transaction.client_id with
      | none => (Except.error "Error: Client not found in pool", clients, transaction_tree)
      | some client =>
        if client.locked then
          (Except.error "client is locked, cannot process chargeback",
            clients, transaction_tree)
        else
          match found_transaction.amount with
          | none =>
            (Except.error "Error: Transaction amount was not provided",
              clients, transaction_tree)
          | some chargeback_amount =>
            if found_transaction.tx_type = TransactionType.Deposit then
              if client.held < chargeback_amount then
                (Except.error "Error: Client does not have enough held funds to chargeback",
                  clients, transaction_tree)
              else if ¬ found_transaction.in_dispute then
                (Except.error "Error: Specified transaction is not in dispute",
                  clients, transaction_tree)
              else
                let client1 := { client with
                  held := client.held - chargeback_amount,
                  total := client.total - chargeback_amount,
                  locked := true }
                let found1 := { found_transaction with in_dispute := false }
                if client1.check_client_validity then
                  (Except.ok (),
                    ClientPool.setc clients transaction.client_id client1,
                    TransactionTree.sett transaction_tree transaction.tx_id found1)
                else
                  let client2 := { client1 with
                    held := client1.held + chargeback_amount,
                    total := client1.total + chargeback_amount,
                    locked := false }
                  let found2 := { found1 with in_dispute := true }
                  (Except.error "Error: Client is invalid after chargeback",
                    ClientPool.setc clients transaction.client_id client2,
                    TransactionTree.sett transaction_tree transaction.tx_id found2)
            else
              (Except.ok (), clients, transaction_tree)

/-- Outcome of one loop iteration of process_transactions: the record was
processed, skipped as a duplicate, or skipped because its handler failed. -/
inductive StepResult
  | ok
  | duplicate
  | failed (e : String)
deriving DecidableEq, Repr

/-- One iteration of the loop body of process_transactions: the duplicate
check for deposits/withdrawals, dispatch on type, and recording of
successful deposits/withdrawals in the tree. -/
def processOne (transaction : Transaction) (clients : ClientPool)
    (transaction_numbers : TransactionTree) :
    StepResult × ClientPool × TransactionTree :=
  if (transaction.tx_type = TransactionType.Deposit ∨
      transaction.tx_type = TransactionType.Withdrawal) ∧
      TransactionTree.contains transaction_numbers transaction.tx_id then
    (StepResult.duplicate, clients, transaction_numbers)
  else
    match transaction.tx_type with
    | TransactionType.Deposit =>
      match process_deposit transaction clients with
      | (Except.ok _, clients1) =>
        (StepResult.ok, clients1, TransactionTree.insertT transaction_numbers transaction)
      | (Except.error e, clients1) => (StepResult.failed e, clients1, transaction_numbers)
    | TransactionType.Withdrawal =>
      match process_withdrawal transaction clients with
      | (Except.ok _, clients1) =>
        (StepResult.ok, clients1, TransactionTree.insertT transaction_numbers transaction)
      | (Except.error e, clients1) => (StepResult.failed e, clients1, transaction_numbers)
    | TransactionType.Dispute =>
      match process_dispute transaction clients transaction_numbers with
      | (Except.ok _, clients1, tree1) => (StepResult.ok, clients1, tree1)
      | (Except.error e, clients1, tree1) => (StepResult.failed e, clients1, tree1)
    | TransactionType.Resolve =>
      match process_resolve transaction clients transaction_numbers with
      | (Except.ok _, clients1, tree1) => (StepResult.ok, clients1, tree1)
      | (Except.error e, clients1, tree1) => (StepResult.failed e, clients1, tree1)
    | TransactionType.Chargeback =>
      match process_chargeback transaction clients transaction_numbers with
      | (Except.ok _, clients1, tree1) => (StepResult.ok, clients1, tree1)
      | (Except.error e, clients1, tree1) => (StepResult.failed e, clients1, tree1)

/-- process_transactions: fold the loop body over the input sequence.
The Rust function returns Ok(()) unconditionally and mutates the pool and
tree in place; we return the final pool and tree. -/
def process_transactions (transactions : List Transaction) (clients : ClientPool)
    (transaction_numbers : TransactionTree) : ClientPool × TransactionTree :=
  match transactions with
  | [] => (clients, transaction_numbers)
  | t :: rest =>
    let s := processOne t clients transaction_numbers
    process_transactions rest s.2.1 s.2.2

instance : DecidableEq (Except String Unit) := fun a b =>
  match a, b with
  | Except.ok (), Except.ok () => Decidable.isTrue rfl
  | Except.ok (), Except.error _ => Decidable.isFalse (fun h => Except.noConfusion h)
  | Except.error _, Except.ok () => Decidable.isFalse (fun h => Except.noConfusion h)
  | Except.error e, Except.error f =>
    match decEq e f with
    | Decidable.isTrue h => Decidable.isTrue (by rw [h])
    | Decidable.isFalse h => Decidable.isFalse (fun hh => h (Except.error.inj hh))

/-! Well-formedness of the transaction log (claim C10): every stored
record is a deposit or withdrawal carrying a nonnegative amount. -/

/-- A stored log record of the kind the engine ever inserts. -/
def Transaction.stored_ok (t : Transaction) : Bool :=
  (decide (t.tx_type = TransactionType.Deposit ∨ t.tx_type = TransactionType.Withdrawal)) &&
  (match t.amount with
   | some a => decide (0 ≤ a)
   | none => false)

/-- Every record in the tree is a deposit/withdrawal with a nonnegative
amount. -/
def TransactionTree.wellFormed (tr : TransactionTree) : Bool :=
  MapList.allP Transaction.stored_ok tr

/-! Lemmas about the association-list map model. -/

namespace MapList

theorem get_set_self {β : Type} (m : List (Nat × β)) (k : Nat) (v0 w : β)
    (h : get m k = some v0) : get (set m k w) k = some w := by
  induction m with
  | nil => simp [get] at h
  | cons kv rest ih =>
    obtain ⟨k1, v1⟩ := kv
    by_cases hk : k1 = k
    · simp [get, set, hk]
    · simp only [get, set, if_neg hk] at h ⊢
      exact ih h

theorem set_eq_of_get {β : Type} (m : List (Nat × β)) (k : Nat) (w : β)
    (h : get m k = some w) : set m k w = m := by
  induction m with
  | nil => simp [set]
  | cons kv rest ih =>
    obtain ⟨k1, v1⟩ := kv
    by_cases hk : k1 = k
    · simp only [get, if_pos hk, Option.some.injEq] at h
      simp [set, hk, h]
    · simp only [get, if_neg hk] at h
      simp [set, hk, ih h]

theorem get_insertKV {β : Type} (m : List (Nat × β)) (k : Nat) (w : β) (k' : Nat) :
    get (insertKV m k w) k' = if k' = k then some w else get m k' := by
  induction m with
  | nil =>
    by_cases h : k' = k
    · subst h; simp [insertKV, get]
    · have h' : ¬ k = k' := fun hh => h hh.symm
      simp [insertKV, get, h, h']
  | cons kv rest ih =>
    obtain ⟨k1, v1⟩ := kv
    by_cases h1 : k1 = k
    · subst h1
      by_cases h2 : k1 = k'
      · subst h2; simp [insertKV, get]
      · have h2' : ¬ k' = k1 := fun hh => h2 hh.symm
        simp [insertKV, get, h2, h2']
    · by_cases h2 : k1 = k'
      · subst h2
        simp [insertKV, get, h1]
      · simp [insertKV, get, h1, h2, ih]

theorem allP_get {β : Type} (f : β → Bool) (m : List (Nat × β)) (k : Nat) (v : β)
    (hall : allP f m = true) (h : get m k = some v) : f v = true := by
  induction m with
  | nil => simp [get] at h
  | cons kv rest ih =>
    obtain ⟨k1, v1⟩ := kv
    simp only [allP, List.all_cons, Bool.and_eq_true] at hall
    by_cases hk : k1 = k
    · simp only [get, if_pos hk, Option.some.injEq] at h
      subst h; exact hall.1
    · simp only [get, if_neg hk] at h
      exact ih hall.2 h

theorem allP_set {β : Type} (f : β → Bool) (m : List (Nat × β)) (k : Nat) (w : β)
    (hall : allP f m = true) (hw : f w = true) : allP f (set m k w) = true := by
  induction m with
  | nil => simp [allP, set]
  | cons kv rest ih =>
    obtain ⟨k1, v1⟩ := kv
    simp only [allP, List.all_cons, Bool.and_eq_true] at hall
    by_cases hk : k1 = k
    · simp [set, hk, allP, hw, hall.2]
    · simp only [set, if_neg hk, allP, List.all_cons, Bool.and_eq_true]
      exact ⟨hall.1, ih hall.2⟩

theorem allP_insertKV {β : Type} (f : β → Bool) (m : List (Nat × β)) (k : Nat) (w : β)
    (hall : allP f m = true) (hw : f w = true) : allP f (insertKV m k w) = true := by
  induction m with
  | nil => simp [allP, insertKV, hw]
  | cons kv rest ih =>
    obtain ⟨k1, v1⟩ := kv
    simp only [allP, List.all_cons, Bool.and_eq_true] at hall
    by_cases hk : k1 = k
    · simp [insertKV, hk, allP, hw, hall.2]
    · simp only [insertKV, if_neg hk, allP, List.all_cons, Bool.and_eq_true]
      exact ⟨hall.1, ih hall.2⟩

end MapList

/-- check_client_validity holds exactly when the ledger invariant of the
spec holds: all three balances are nonnegative and total = available + held. -/
theorem check_client_validity_iff (c : Client) :
    c.check_client_validity = true ↔
      0 ≤ c.available ∧ 0 ≤ c.held ∧ 0 ≤ c.total ∧ c.total = c.available + c.held := by
  simp only [Client.check_client_validity]
  split_ifs with h1 h2 h3
  · simp only [Bool.false_eq_true, false_iff]
    intro hcon
    obtain ⟨ha, hh, ht, he⟩ := hcon
    rcases h1 with h1 | h1
    · linarith
    · apply h1; linarith
  · simp only [Bool.false_eq_true, false_iff]
    intro hcon
    obtain ⟨ha, hh, ht, he⟩ := hcon
    rcases h2 with h2 | h2
    · linarith
    · apply h2; linarith
  · simp only [Bool.false_eq_true, false_iff]
    intro hcon
    obtain ⟨ha, hh, ht, he⟩ := hcon
    rcases h3 with h3 | h3
    · linarith
    · apply h3; linarith
  · simp only [true_iff]
    push_neg at h1 h2 h3
    exact ⟨h1.1, h2.1, h3.1, h3.2.symm⟩

/-- A freshly created client passes the validity check. -/
theorem Client.new_valid (id : ClientId) : (Client.new id).check_client_validity = true := by
  rw [check_client_validity_iff]
  simp [Client.new]

/-- ensure preserves pool-wide validity. -/
theorem ClientPool.ensure_allValid (p : ClientPool) (id : ClientId)
    (hall : ClientPool.allValid p = true) :
    ClientPool.allValid (ClientPool.ensure p id) = true := by
  unfold ClientPool.ensure
  split
  · exact hall
  · exact MapList.allP_insertKV _ _ _ _ hall (Client.new_valid id)

/-! Preservation of the ledger invariant (claim C1). -/

theorem process_deposit_allValid (t : Transaction) (p : ClientPool)
    (hall : ClientPool.allValid p = true) :
    ClientPool.allValid (process_deposit t p).2 = true := by
  have hall1 := ClientPool.ensure_allValid p t.client_id hall
  simp only [process_deposit]
  split
  · exact hall1
  · rename_i client hget
    split
    · exact hall1
    · split
      · exact hall1
      · rename_i amt hamt
        split
        · exact hall1
        · split
          · rename_i hvalid
            exact MapList.allP_set _ _ _ _ hall1 hvalid
          · refine MapList.allP_set _ _ _ _ hall1 ?_
            have hcv : client.check_client_validity = true :=
              MapList.allP_get _ _ _ _ hall1 hget
            convert hcv using 2
            ext <;> simp

theorem process_withdrawal_allValid (t : Transaction) (p : ClientPool)
    (hall : ClientPool.allValid p = true) :
    ClientPool.allValid (process_withdrawal t p).2 = true := by
  have hall1 := ClientPool.ensure_allValid p t.client_id hall
  simp only [process_withdrawal]
  split
  · exact hall1
  · rename_i client hget
    split
    · exact hall1
    · split
      · exact hall1
      · rename_i amt hamt
        split
        · exact hall1
        · split
          · exact hall1
          · split
            · rename_i hvalid
              exact MapList.allP_set _ _ _ _ hall1 hvalid
            · refine MapList.allP_set _ _ _ _ hall1 ?_
              have hcv : client.check_client_validity = true :=
                MapList.allP_get _ _ _ _ hall1 hget
              convert hcv using 2
              ext <;> simp

theorem process_dispute_allValid (t : Transaction) (p : ClientPool) (tr : TransactionTree)
    (hall : ClientPool.allValid p = true) :
    ClientPool.allValid (process_dispute t p tr).2.1 = true := by
  simp only [process_dispute]
  split
  · exact hall
  · split
    · exact hall
    · rename_i ft hft
      split
      · exact hall
      · rename_i client hget
        split
        · exact hall
        · split
          · exact hall
          · rename_i amt hamt
            split
            · split
              · exact hall
              · split
                · rename_i hvalid
                  exact MapList.allP_set _ _ _ _ hall hvalid
                · refine MapList.allP_set _ _ _ _ hall ?_
                  have hcv : client.check_client_validity = true :=
                    MapList.allP_get _ _ _ _ hall hget
                  convert hcv using 2
                  ext <;> simp
            · exact hall

theorem process_resolve_allValid (t : Transaction) (p : ClientPool) (tr : TransactionTree)
    (hall : ClientPool.allValid p = true) :
    ClientPool.allValid (process_resolve t p tr).2.1 = true := by
  simp only [process_resolve]
  split
  · exact hall
  · split
    · exact hall
    · rename_i ft hft
      split
      · exact hall
      · rename_i client hget
        split
        · exact hall
        · split
          · exact hall
          · rename_i amt hamt
            split
            · split
              · exact hall
              · split
                · exact hall
                · split
                  · rename_i hvalid
                    exact MapList.allP_set _ _ _ _ hall hvalid
                  · refine MapList.allP_set _ _ _ _ hall ?_
                    have hcv : client.check_client_validity = true :=
                      MapList.allP_get _ _ _ _ hall hget
                    convert hcv using 2
                    ext <;> simp
            · exact hall

theorem process_chargeback_allValid (t : Transaction) (p : ClientPool) (tr : TransactionTree)
    (hall : ClientPool.allValid p = true) :
    ClientPool.allValid (process_chargeback t p tr).2.1 = true := by
  simp only [process_chargeback]
  split
  · exact hall
  · split
    · exact hall
    · rename_i ft hft
      split
      · exact hall
      · rename_i client hget
        split
        · exact hall
        · rename_i hlock
          split
          · exact hall
          · rename_i amt hamt
            split
            · split
              · exact hall
              · split
                · exact hall
                · split
                  · rename_i hvalid
                    exact MapList.allP_set _ _ _ _ hall hvalid
                  · refine MapList.allP_set _ _ _ _ hall ?_
                    have hcv : client.check_client_validity = true :=
                      MapList.allP_get _ _ _ _ hall hget
                    have hlock' : client.locked = false := by
                      simpa using hlock
                    convert hcv using 2
                    ext <;> simp [hlock']
            · exact hall

theorem processOne_allValid (t : Transaction) (p : ClientPool) (tr : TransactionTree)
    (hall : ClientPool.allValid p = true) :
    ClientPool.allValid (processOne t p tr).2.1 = true := by
  simp only [processOne]
  split
  · exact hall
  · split
    · split
      · rename_i hres
        have hd := process_deposit_allValid t p hall
        rw [hres] at hd
        exact hd
      · rename_i hres
        have hd := process_deposit_allValid t p hall
        rw [hres] at hd
        exact hd
    · split
      · rename_i hres
        have hd := process_withdrawal_allValid t p hall
        rw [hres] at hd
        exact hd
      · rename_i hres
        have hd := process_withdrawal_allValid t p hall
        rw [hres] at hd
        exact hd
    · split
      · rename_i hres
        have hd := process_dispute_allValid t p tr hall
        rw [hres] at hd
        exact hd
      · rename_i hres
        have hd := process_dispute_allValid t p tr hall
        rw [hres] at hd
        exact hd
    · split
      · rename_i hres
        have hd := process_resolve_allValid t p tr hall
        rw [hres] at hd
        exact hd
      · rename_i hres
        have hd := process_resolve_allValid t p tr hall
        rw [hres] at hd
        exact hd
    · split
      · rename_i hres
        have hd := process_chargeback_allValid t p tr hall
        rw [hres] at hd
        exact hd
      · rename_i hres
        have hd := process_chargeback_allValid t p tr hall
        rw [hres] at hd
        exact hd

theorem process_transactions_allValid :
    ∀ (txs : List Transaction) (p : ClientPool) (tr : TransactionTree),
      ClientPool.allValid p = true →
      ClientPool.allValid (process_transactions txs p tr).1 = true := by
  intro txs
  induction txs with
  | nil => intro p tr hall; exact hall
  | cons t rest ih =>
    intro p tr hall
    simp only [process_transactions]
    exact ih _ _ (processOne_allValid t p tr hall)

/-- Toggling in_dispute does not change stored_ok. -/
theorem Transaction.stored_ok_set_dispute (t : Transaction) (b : Bool) :
    Transaction.stored_ok { t with in_dispute := b } = t.stored_ok := rfl

/-- A successful deposit has a present, nonnegative amount. -/
theorem process_deposit_ok_amount (t : Transaction) (p : ClientPool)
    (h : (process_deposit t p).1 = Except.ok ()) :
    ∃ a, t.amount = some a ∧ 0 ≤ a := by
  simp only [process_deposit] at h
  split at h
  · simp at h
  · split at h
    · simp at h
    · split at h
      · simp at h
      · rename_i amt hamt
        split at h
        · simp at h
        · rename_i hneg
          split at h
          · exact ⟨amt, hamt, not_lt.mp hneg⟩
          · simp at h

/-- A successful withdrawal has a present, nonnegative amount. -/
theorem process_withdrawal_ok_amount (t : Transaction) (p : ClientPool)
    (h : (process_withdrawal t p).1 = Except.ok ()) :
    ∃ a, t.amount = some a ∧ 0 ≤ a := by
  simp only [process_withdrawal] at h
  split at h
  · simp at h
  · split at h
    · simp at h
    · split at h
      · simp at h
      · rename_i amt hamt
        split at h
        · simp at h
        · rename_i hneg
          split at h
          · simp at h
          · split at h
            · exact ⟨amt, hamt, not_lt.mp hneg⟩
            · simp at h

theorem process_dispute_wellFormed (t : Transaction) (p : ClientPool) (tr : TransactionTree)
    (hwf : TransactionTree.wellFormed tr = true) :
    TransactionTree.wellFormed (process_dispute t p tr).2.2 = true := by
  simp only [process_dispute]
  split
  · exact hwf
  · split
    · exact hwf
    · rename_i ft hft
      have hok : ft.stored_ok = true := MapList.allP_get _ _ _ _ hwf hft
      split
      · exact hwf
      · split
        · exact hwf
        · split
          · exact hwf
          · split
            · split
              · exact hwf
              · split
                · refine MapList.allP_set _ _ _ _ hwf ?_
                  rw [Transaction.stored_ok_set_dispute]
                  exact hok
                · refine MapList.allP_set _ _ _ _ hwf ?_
                  rw [Transaction.stored_ok_set_dispute]
                  exact hok
            · exact hwf

theorem process_resolve_wellFormed (t : Transaction) (p : ClientPool) (tr : TransactionTree)
    (hwf : TransactionTree.wellFormed tr = true) :
    TransactionTree.wellFormed (process_resolve t p tr).2.2 = true := by
  simp only [process_resolve]
  split
  · exact hwf
  · split
    · exact hwf
    · rename_i ft hft
      have hok : ft.stored_ok = true := MapList.allP_get _ _ _ _ hwf hft
      split
      · exact hwf
      · split
        · exact hwf
        · split
          · exact hwf
          · split
            · split
              · exact hwf
              · split
                · exact hwf
                · split
                  · refine MapList.allP_set _ _ _ _ hwf ?_
                    rw [Transaction.stored_ok_set_dispute]
                    exact hok
                  · refine MapList.allP_set _ _ _ _ hwf ?_
                    rw [Transaction.stored_ok_set_dispute]
                    exact hok
            · exact hwf

theorem process_chargeback_wellFormed (t : Transaction) (p : ClientPool) (tr : TransactionTree)
    (hwf : TransactionTree.wellFormed tr = true) :
    TransactionTree.wellFormed (process_chargeback t p tr).2.2 = true := by
  simp only [process_chargeback]
  split
  · exact hwf
  · split
    · exact hwf
    · rename_i ft hft
      have hok : ft.stored_ok = true := MapList.allP_get _ _ _ _ hwf hft
      split
      · exact hwf
      · split
        · exact hwf
        · split
          · exact hwf
          · split
            · split
              · exact hwf
              · split
                · exact hwf
                · split
                  · refine MapList.allP_set _ _ _ _ hwf ?_
                    rw [Transaction.stored_ok_set_dispute]
                    exact hok
                  · refine MapList.allP_set _ _ _ _ hwf ?_
                    rw [Transaction.stored_ok_set_dispute]
                    exact hok
            · exact hwf

theorem processOne_wellFormed (t : Transaction) (p : ClientPool) (tr : TransactionTree)
    (hwf : TransactionTree.wellFormed tr = true) :
    TransactionTree.wellFormed (processOne t p tr).2.2 = true := by
  simp only [processOne]
  split
  · exact hwf
  · split
    · rename_i htype
      split
      · rename_i u clients1 hres
        refine MapList.allP_insertKV _ _ _ _ hwf ?_
        cases u
        have hok := process_deposit_ok_amount t p (by rw [hres])
        obtain ⟨a, ha, ha0⟩ := hok
        simp [Transaction.stored_ok, htype, ha, ha0]
      · exact hwf
    · rename_i htype
      split
      · rename_i u clients1 hres
        refine MapList.allP_insertKV _ _ _ _ hwf ?_
        cases u
        have hok := process_withdrawal_ok_amount t p (by rw [hres])
        obtain ⟨a, ha, ha0⟩ := hok
        simp [Transaction.stored_ok, htype, ha, ha0]
      · exact hwf
    · split
      · rename_i hres
        have hd := process_dispute_wellFormed t p tr hwf
        rw [hres] at hd
        exact hd
      · rename_i hres
        have hd := process_dispute_wellFormed t p tr hwf
        rw [hres] at hd
        exact hd
    · split
      · rename_i hres
        have hd := process_resolve_wellFormed t p tr hwf
        rw [hres] at hd
        exact hd
      · rename_i hres
        have hd := process_resolve_wellFormed t p tr hwf
        rw [hres] at hd
        exact hd
    · split
      · rename_i hres
        have hd := process_chargeback_wellFormed t p tr hwf
        rw [hres] at hd
        exact hd
      · rename_i hres
        have hd := process_chargeback_wellFormed t p tr hwf
        rw [hres] at hd
        exact hd

theorem process_transactions_wellFormed :
    ∀ (txs : List Transaction) (p : ClientPool) (tr : TransactionTree),
      TransactionTree.wellFormed tr = true →
      TransactionTree.wellFormed (process_transactions txs p tr).2 = true := by
  intro txs
  induction txs with
  | nil => intro p tr hwf; exact hwf
  | cons t rest ih =>
    intro p tr hwf
    simp only [process_transactions]
    exact ih _ _ (processOne_wellFormed t p tr hwf)

/-- Claim C1: for every input sequence processed by process_transactions
starting from an empty client pool and empty transaction log, after every
processed record (i.e. after any prefix of the input), every client in
the pool satisfies total = available + held, available ≥ 0, held ≥ 0 and
total ≥ 0. -/
theorem C1_ledger_invariant (txs : List Transaction) (k : Nat) (cid : ClientId) (c : Client)
    (h : ClientPool.get_client (process_transactions (txs.take k) [] []).1 cid = some c) :
    c.total = c.available + c.held ∧ 0 ≤ c.available ∧ 0 ≤ c.held ∧ 0 ≤ c.total := by
  have hall : ClientPool.allValid (process_transactions (txs.take k) [] []).1 = true :=
    process_transactions_allValid _ _ _ rfl
  have hcv := MapList.allP_get _ _ _ _ hall h
  have hprops := (check_client_validity_iff c).mp hcv
  exact ⟨hprops.2.2.2, hprops.1, hprops.2.1, hprops.2.2.1⟩

/-- Witness for C1 at a concrete input: a single deposit of 5. -/
theorem C1_ledger_invariant_witness :
    ClientPool.get_client
        (process_transactions
          ([⟨TransactionType.Deposit, 1, 1, some 5, false⟩].take 1) [] []).1 1 =
      some (⟨1, 5, 0, 5, false⟩ : Client) ∧
    ((⟨1, 5, 0, 5, false⟩ : Client).total =
        (⟨1, 5, 0, 5, false⟩ : Client).available + (⟨1, 5, 0, 5, false⟩ : Client).held ∧
      0 ≤ (⟨1, 5, 0, 5, false⟩ : Client).available ∧
      0 ≤ (⟨1, 5, 0, 5, false⟩ : Client).held ∧
      0 ≤ (⟨1, 5, 0, 5, false⟩ : Client).total) := by
  have h : ClientPool.get_client
      (process_transactions
        ([⟨TransactionType.Deposit, 1, 1, some 5, false⟩].take 1) [] []).1 1 =
      some (⟨1, 5, 0, 5, false⟩ : Client) := by decide
  exact ⟨h, C1_ledger_invariant _ 1 1 _ h⟩

/-- Claim C10: starting from an empty pool and log, every record stored in
the transaction log by process_transactions (after any prefix of the
input) has type Deposit or Withdrawal and a present, nonnegative amount;
in particular the missing-amount branch of the dispute-family handlers can
never fire on a looked-up record. -/
theorem C10_log_contents (txs : List Transaction) (k : Nat) (txid : TransactionId)
    (t : Transaction)
    (h : TransactionTree.get (process_transactions (txs.take k) [] []).2 txid = some t) :
    (t.tx_type = TransactionType.Deposit ∨ t.tx_type = TransactionType.Withdrawal) ∧
      t.amount.isSome = true ∧ 0 ≤ t.amount.getD 0 := by
  have hwf : TransactionTree.wellFormed (process_transactions (txs.take k) [] []).2 = true :=
    process_transactions_wellFormed _ _ _ rfl
  have hok := MapList.allP_get _ _ _ _ hwf h
  simp only [Transaction.stored_ok, Bool.and_eq_true, decide_eq_true_eq] at hok
  obtain ⟨hty, hamt⟩ := hok
  refine ⟨hty, ?_, ?_⟩
  · rcases hv : t.amount with _ | a
    · rw [hv] at hamt
      simp at hamt
    · simp [hv]
  · rcases hv : t.amount with _ | a
    · rw [hv] at hamt
      simp at hamt
    · rw [hv] at hamt
      simp only [decide_eq_true_eq] at hamt
      simpa [hv] using hamt

/-- Witness for C10 at a concrete input: a single deposit of 5. -/
theorem C10_log_contents_witness :
    TransactionTree.get
        (process_transactions
          ([⟨TransactionType.Deposit, 1, 1, some 5, false⟩].take 1) [] []).2 1 =
      some (⟨TransactionType.Deposit, 1, 1, some 5, false⟩ : Transaction) ∧
    (((⟨TransactionType.Deposit, 1, 1, some 5, false⟩ : Transaction).tx_type =
          TransactionType.Deposit ∨
        (⟨TransactionType.Deposit, 1, 1, some 5, false⟩ : Transaction).tx_type =
          TransactionType.Withdrawal) ∧
      (⟨TransactionType.Deposit, 1, 1, some 5, false⟩ : Transaction).amount.isSome = true ∧
      0 ≤ (⟨TransactionType.Deposit, 1, 1, some 5, false⟩ : Transaction).amount.getD 0) := by
  have h : TransactionTree.get
      (process_transactions
        ([⟨TransactionType.Deposit, 1, 1, some 5, false⟩].take 1) [] []).2 1 =
      some (⟨TransactionType.Deposit, 1, 1, some 5, false⟩ : Transaction) := by decide
  exact ⟨h, C10_log_contents _ 1 1 _ h⟩

/-! Lock freeze (claim C3): a locked client makes every handler fail
without touching the state. -/

theorem process_deposit_locked (t : Transaction) (p : ClientPool) (c : Client)
    (hc : ClientPool.get_client p t.client_id = some c) (hl : c.locked = true) :
    process_deposit t p = (Except.error "client is locked, cannot process deposit", p) := by
  have hens : ClientPool.ensure p t.client_id = p := by
    simp [ClientPool.ensure, ClientPool.has_client, hc]
  simp [process_deposit, hens, hc, hl]

theorem process_withdrawal_locked (t : Transaction) (p : ClientPool) (c : Client)
    (hc : ClientPool.get_client p t.client_id = some c) (hl : c.locked = true) :
    process_withdrawal t p = (Except.error "client is locked, cannot process withdrawal", p) := by
  have hens : ClientPool.ensure p t.client_id = p := by
    simp [ClientPool.ensure, ClientPool.has_client, hc]
  simp [process_withdrawal, hens, hc, hl]

theorem process_dispute_locked (t : Transaction) (p : ClientPool) (tr : TransactionTree)
    (c : Client)
    (hc : ClientPool.get_client p t.client_id = some c) (hl : c.locked = true) :
    ∃ e, process_dispute t p tr = (Except.error e, p, tr) := by
  have hhas : ClientPool.has_client p t.client_id = true := by
    simp [ClientPool.has_client, hc]
  rcases hft : TransactionTree.get tr t.tx_id with _ | ft
  · exact ⟨"Error: Provided transaction has not been processed",
      by simp [process_dispute, hhas, hft]⟩
  · exact ⟨"client is locked, cannot process dispute",
      by simp [process_dispute, hhas, hft, hc, hl]⟩

theorem process_resolve_locked (t : Transaction) (p : ClientPool) (tr : TransactionTree)
    (c : Client)
    (hc : ClientPool.get_client p t.client_id = some c) (hl : c.locked = true) :
    ∃ e, process_resolve t p tr = (Except.error e, p, tr) := by
  have hhas : ClientPool.has_client p t.client_id = true := by
    simp [ClientPool.has_client, hc]
  rcases hft : TransactionTree.get tr t.tx_id with _ | ft
  · exact ⟨"Error: Provided transaction has not been processed",
      by simp [process_resolve, hhas, hft]⟩
  · exact ⟨"client is locked, cannot process resolve",
      by simp [process_resolve, hhas, hft, hc, hl]⟩

theorem process_chargeback_locked (t : Transaction) (p : ClientPool) (tr : TransactionTree)
    (c : Client)
    (hc : ClientPool.get_client p t.client_id = some c) (hl : c.locked = true) :
    ∃ e, process_chargeback t p tr = (Except.error e, p, tr) := by
  have hhas : ClientPool.has_client p t.client_id = true := by
    simp [ClientPool.has_client, hc]
  rcases hft : TransactionTree.get tr t.tx_id with _ | ft
  · exact ⟨"Error: Provided transaction has not been processed",
      by simp [process_chargeback, hhas, hft]⟩
  · exact ⟨"client is locked, cannot process chargeback",
      by simp [process_chargeback, hhas, hft, hc, hl]⟩

/-- Claim C3: once a client is locked, every subsequent transaction of any
kind naming that client is rejected (never processed successfully) and
leaves the client pool and the transaction log exactly unchanged. -/
theorem C3_lock_freeze (t : Transaction) (p : ClientPool) (tr : TransactionTree) (c : Client)
    (hc : ClientPool.get_client p t.client_id = some c) (hl : c.locked = true) :
    (processOne t p tr).2.1 = p ∧ (processOne t p tr).2.2 = tr ∧
      (processOne t p tr).1 ≠ StepResult.ok := by
  simp only [processOne]
  split
  · exact ⟨rfl, rfl, fun h => StepResult.noConfusion h⟩
  · split
    · rw [process_deposit_locked t p c hc hl]
      exact ⟨rfl, rfl, fun h => StepResult.noConfusion h⟩
    · rw [process_withdrawal_locked t p c hc hl]
      exact ⟨rfl, rfl, fun h => StepResult.noConfusion h⟩
    · obtain ⟨e, he⟩ := process_dispute_locked t p tr c hc hl
      rw [he]
      exact ⟨rfl, rfl, fun h => StepResult.noConfusion h⟩
    · obtain ⟨e, he⟩ := process_resolve_locked t p tr c hc hl
      rw [he]
      exact ⟨rfl, rfl, fun h => StepResult.noConfusion h⟩
    · obtain ⟨e, he⟩ := process_chargeback_locked t p tr c hc hl
      rw [he]
      exact ⟨rfl, rfl, fun h => StepResult.noConfusion h⟩

/-- Witness for C3 at a concrete input: a deposit for a locked client. -/
theorem C3_lock_freeze_witness :
    ClientPool.get_client [(7, (⟨7, 0, 0, 0, true⟩ : Client))] 7 =
      some (⟨7, 0, 0, 0, true⟩ : Client) ∧
    (⟨7, 0, 0, 0, true⟩ : Client).locked = true ∧
    ((processOne ⟨TransactionType.Deposit, 7, 9, some 5, false⟩
          [(7, ⟨7, 0, 0, 0, true⟩)] []).2.1 = [(7, ⟨7, 0, 0, 0, true⟩)] ∧
      (processOne ⟨TransactionType.Deposit, 7, 9, some 5, false⟩
          [(7, ⟨7, 0, 0, 0, true⟩)] []).2.2 = [] ∧
      (processOne ⟨TransactionType.Deposit, 7, 9, some 5, false⟩
          [(7, ⟨7, 0, 0, 0, true⟩)] []).1 ≠ StepResult.ok) := by
  have hc : ClientPool.get_client [(7, (⟨7, 0, 0, 0, true⟩ : Client))] 7 =
      some (⟨7, 0, 0, 0, true⟩ : Client) := by decide
  exact ⟨hc, rfl, C3_lock_freeze _ _ _ _ hc rfl⟩

/-- Claim C7: a dispute whose client exists and is unlocked and whose
referenced logged transaction has a present amount but a type other than
Deposit returns success and changes nothing: the pool and the tree (hence
the client fields and the in_dispute flag) are returned unchanged. -/
theorem C7_nondeposit_dispute_noop (t : Transaction) (p : ClientPool) (tr : TransactionTree)
    (c : Client) (ft : Transaction) (a : ℤ)
    (hc : ClientPool.get_client p t.client_id = some c) (hl : c.locked = false)
    (hft : TransactionTree.get tr t.tx_id = some ft)
    (hty : ft.tx_type ≠ TransactionType.Deposit) (hamt : ft.amount = some a) :
    process_dispute t p tr = (Except.ok (), p, tr) := by
  have hhas : ClientPool.has_client p t.client_id = true := by
    simp [ClientPool.has_client, hc]
  simp [process_dispute, hhas, hft, hc, hl, hamt, hty]

/-- Witness for C7 at a concrete input: disputing a logged withdrawal. -/
theorem C7_nondeposit_dispute_noop_witness :
    ClientPool.get_client [(1, (⟨1, 5, 0, 5, false⟩ : Client))] 1 =
      some (⟨1, 5, 0, 5, false⟩ : Client) ∧
    (⟨1, 5, 0, 5, false⟩ : Client).locked = false ∧
    TransactionTree.get [(2, (⟨TransactionType.Withdrawal, 1, 2, some 3, false⟩ : Transaction))]
        2 = some (⟨TransactionType.Withdrawal, 1, 2, some 3, false⟩ : Transaction) ∧
    (⟨TransactionType.Withdrawal, 1, 2, some 3, false⟩ : Transaction).tx_type ≠
      TransactionType.Deposit ∧
    (⟨TransactionType.Withdrawal, 1, 2, some 3, false⟩ : Transaction).amount = some 3 ∧
    process_dispute ⟨TransactionType.Dispute, 1, 2, none, false⟩
        [(1, ⟨1, 5, 0, 5, false⟩)]
        [(2, ⟨TransactionType.Withdrawal, 1, 2, some 3, false⟩)] =
      (Except.ok (), [(1, ⟨1, 5, 0, 5, false⟩)],
        [(2, ⟨TransactionType.Withdrawal, 1, 2, some 3, false⟩)]) := by
  have hc : ClientPool.get_client [(1, (⟨1, 5, 0, 5, false⟩ : Client))] 1 =
      some (⟨1, 5, 0, 5, false⟩ : Client) := by decide
  have hft : TransactionTree.get
      [(2, (⟨TransactionType.Withdrawal, 1, 2, some 3, false⟩ : Transaction))] 2 =
      some (⟨TransactionType.Withdrawal, 1, 2, some 3, false⟩ : Transaction) := by decide
  have hty : (⟨TransactionType.Withdrawal, 1, 2, some 3, false⟩ : Transaction).tx_type ≠
      TransactionType.Deposit := by decide
  exact ⟨hc, rfl, hft, hty, rfl,
    C7_nondeposit_dispute_noop ⟨TransactionType.Dispute, 1, 2, none, false⟩
      _ _ _ _ 3 hc rfl hft hty rfl⟩

/-- Claim C9: the dispute-family handlers never compare the incoming
record's client id with the client id stored on the referenced
transaction.  Concretely: client 1 logged a deposit of 3 (tx 1), and a
dispute naming client 2 but referencing tx 1 succeeds and moves 3 from
client 2's available into client 2's held, leaving client 1 untouched. -/
theorem C9_cross_client_dispute :
    process_dispute ⟨TransactionType.Dispute, 2, 1, none, false⟩
        [(1, ⟨1, 10, 0, 10, false⟩), (2, ⟨2, 5, 0, 5, false⟩)]
        [(1, ⟨TransactionType.Deposit, 1, 1, some 3, false⟩)] =
      (Except.ok (),
        [(1, ⟨1, 10, 0, 10, false⟩), (2, ⟨2, 2, 3, 5, false⟩)],
        [(1, ⟨TransactionType.Deposit, 1, 1, some 3, true⟩)]) := by
  decide

/-- Counterexample to claim C4 as stated: a withdrawal of amount 0 for an
unseen client does not fail the available-balance check; it succeeds and
is recorded in the transaction log. -/
theorem C4_counterexample_zero_withdrawal :
    (processOne ⟨TransactionType.Withdrawal, 1, 1, some 0, false⟩ [] []).1 = StepResult.ok ∧
    TransactionTree.get
        (processOne ⟨TransactionType.Withdrawal, 1, 1, some 0, false⟩ [] []).2.2 1 =
      some (⟨TransactionType.Withdrawal, 1, 1, some 0, false⟩ : Transaction) := by
  decide

/-- Claim C4 (amended): for every withdrawal whose client id is not in
the pool, whose tx id is not already logged, and whose amount is present
and strictly positive, processing inserts a fresh zero-balance unlocked
client for that id, the withdrawal fails the available-balance check, and
nothing is recorded in the transaction log. -/
theorem C4_unseen_client_withdrawal (t : Transaction) (p : ClientPool) (tr : TransactionTree)
    (a : ℤ)
    (hnone : ClientPool.get_client p t.client_id = none)
    (hty : t.tx_type = TransactionType.Withdrawal)
    (hamt : t.amount = some a) (hpos : 0 < a)
    (hdup : TransactionTree.contains tr t.tx_id = false) :
    processOne t p tr =
      (StepResult.failed "Error: Client does not have enough available balance to withdraw",
        ClientPool.add_client p (Client.new t.client_id), tr) ∧
    (Client.new t.client_id).available = 0 ∧ (Client.new t.client_id).held = 0 ∧
    (Client.new t.client_id).total = 0 ∧ (Client.new t.client_id).locked = false := by
  have hens : ClientPool.ensure p t.client_id =
      ClientPool.add_client p (Client.new t.client_id) := by
    simp [ClientPool.ensure, ClientPool.has_client, hnone]
  have hget : ClientPool.get_client (ClientPool.add_client p (Client.new t.client_id))
      t.client_id = some (Client.new t.client_id) := by
    unfold ClientPool.get_client ClientPool.add_client
    rw [MapList.get_insertKV]
    simp [Client.new]
  have hneg : ¬ (a < 0) := not_lt.mpr (le_of_lt hpos)
  have hav : (Client.new t.client_id).available < a := by
    simpa [Client.new] using hpos
  have hw : process_withdrawal t p =
      (Except.error "Error: Client does not have enough available balance to withdraw",
        ClientPool.add_client p (Client.new t.client_id)) := by
    simp only [process_withdrawal, hens, hget, hamt]
    simp [Client.new, hneg, hpos]
  refine ⟨?_, rfl, rfl, rfl, rfl⟩
  simp only [processOne, hdup, Bool.false_eq_true, and_false, if_false]
  rw [hty, hw]

/-! Error frames (claim C2): what a failing handler leaves behind. -/

/-- Writing back a client equal to the one already stored is a no-op. -/
theorem ClientPool.setc_restore (p : ClientPool) (id : ClientId) (c x : Client)
    (hget : ClientPool.get_client p id = some c) (hx : x = c) :
    ClientPool.setc p id x = p := by
  rw [hx]
  exact MapList.set_eq_of_get _ _ _ hget

/-- Writing back a transaction equal to the one already stored is a no-op. -/
theorem TransactionTree.sett_restore (tr : TransactionTree) (id : TransactionId)
    (t x : Transaction)
    (hget : TransactionTree.get tr id = some t) (hx : x = t) :
    TransactionTree.sett tr id x = tr := by
  rw [hx]
  exact MapList.set_eq_of_get _ _ _ hget

/-- Unless it succeeds, process_deposit leaves the pool exactly as the
get-or-create prelude left it (the rollback path restores the client). -/
theorem process_deposit_err_pool (t : Transaction) (p : ClientPool) :
    (process_deposit t p).1 = Except.ok () ∨
      (process_deposit t p).2 = ClientPool.ensure p t.client_id := by
  simp only [process_deposit]
  split
  · right; rfl
  · rename_i client hget
    split
    · right; rfl
    · split
      · right; rfl
      · split
        · right; rfl
        · split
          · left; rfl
          · right
            exact ClientPool.setc_restore _ _ _ _ hget (by ext <;> simp)

/-- Unless it succeeds, process_withdrawal leaves the pool exactly as the
get-or-create prelude left it. -/
theorem process_withdrawal_err_pool (t : Transaction) (p : ClientPool) :
    (process_withdrawal t p).1 = Except.ok () ∨
      (process_withdrawal t p).2 = ClientPool.ensure p t.client_id := by
  simp only [process_withdrawal]
  split
  · right; rfl
  · rename_i client hget
    split
    · right; rfl
    · split
      · right; rfl
      · split
        · right; rfl
        · split
          · right; rfl
          · split
            · left; rfl
            · right
              exact ClientPool.setc_restore _ _ _ _ hget (by ext <;> simp)

/-- Unless it succeeds, process_dispute changes neither the pool nor the
tree, provided the pool satisfies the ledger invariant and the tree is
well formed (those invariants make the rollback branch unreachable). -/
theorem process_dispute_err_frame (t : Transaction) (p : ClientPool) (tr : TransactionTree)
    (hall : ClientPool.allValid p = true) (hwf : TransactionTree.wellFormed tr = true) :
    (process_dispute t p tr).1 = Except.ok () ∨
      ((process_dispute t p tr).2.1 = p ∧ (process_dispute t p tr).2.2 = tr) := by
  simp only [process_dispute]
  split
  · right; exact ⟨rfl, rfl⟩
  · split
    · right; exact ⟨rfl, rfl⟩
    · rename_i ft hft
      split
      · right; exact ⟨rfl, rfl⟩
      · rename_i client hget
        split
        · right; exact ⟨rfl, rfl⟩
        · split
          · right; exact ⟨rfl, rfl⟩
          · rename_i amt hamt
            split
            · split
              · right; exact ⟨rfl, rfl⟩
              · split
                · left; rfl
                · exfalso
                  rename_i hty hnav hval
                  apply hval
                  have hcv : client.check_client_validity = true :=
                    MapList.allP_get _ _ _ _ hall hget
                  have hok : ft.stored_ok = true := MapList.allP_get _ _ _ _ hwf hft
                  have ha : 0 ≤ amt := by
                    simp only [Transaction.stored_ok, hamt, Bool.and_eq_true,
                      decide_eq_true_eq] at hok
                    exact hok.2
                  rw [check_client_validity_iff] at hcv ⊢
                  obtain ⟨h1, h2, h3, h4⟩ := hcv
                  have hna := not_lt.mp hnav
                  refine ⟨?_, ?_, ?_, ?_⟩ <;> simp <;> linarith
            · left; rfl

/-- Unless it succeeds, process_resolve changes neither the pool nor the
tree, under the same invariants. -/
theorem process_resolve_err_frame (t : Transaction) (p : ClientPool) (tr : TransactionTree)
    (hall : ClientPool.allValid p = true) (hwf : TransactionTree.wellFormed tr = true) :
    (process_resolve t p tr).1 = Except.ok () ∨
      ((process_resolve t p tr).2.1 = p ∧ (process_resolve t p tr).2.2 = tr) := by
  simp only [process_resolve]
  split
  · right; exact ⟨rfl, rfl⟩
  · split
    · right; exact ⟨rfl, rfl⟩
    · rename_i ft hft
      split
      · right; exact ⟨rfl, rfl⟩
      · rename_i client hget
        split
        · right; exact ⟨rfl, rfl⟩
        · split
          · right; exact ⟨rfl, rfl⟩
          · rename_i amt hamt
            split
            · split
              · right; exact ⟨rfl, rfl⟩
              · split
                · right; exact ⟨rfl, rfl⟩
                · split
                  · left; rfl
                  · exfalso
                    rename_i hty hnheld hdisp hval
                    apply hval
                    have hcv : client.check_client_validity = true :=
                      MapList.allP_get _ _ _ _ hall hget
                    have hok : ft.stored_ok = true := MapList.allP_get _ _ _ _ hwf hft
                    have ha : 0 ≤ amt := by
                      simp only [Transaction.stored_ok, hamt, Bool.and_eq_true,
                        decide_eq_true_eq] at hok
                      exact hok.2
                    rw [check_client_validity_iff] at hcv ⊢
                    obtain ⟨h1, h2, h3, h4⟩ := hcv
                    have hnh := not_lt.mp hnheld
                    refine ⟨?_, ?_, ?_, ?_⟩ <;> simp <;> linarith
            · left; rfl

/-- Unless it succeeds, process_chargeback changes neither the pool nor
the tree, under the same invariants. -/
theorem process_chargeback_err_frame (t : Transaction) (p : ClientPool) (tr : TransactionTree)
    (hall : ClientPool.allValid p = true) (hwf : TransactionTree.wellFormed tr = true) :
    (process_chargeback t p tr).1 = Except.ok () ∨
      ((process_chargeback t p tr).2.1 = p ∧ (process_chargeback t p tr).2.2 = tr) := by
  simp only [process_chargeback]
  split
  · right; exact ⟨rfl, rfl⟩
  · split
    · right; exact ⟨rfl, rfl⟩
    · rename_i ft hft
      split
      · right; exact ⟨rfl, rfl⟩
      · rename_i client hget
        split
        · right; exact ⟨rfl, rfl⟩
        · split
          · right; exact ⟨rfl, rfl⟩
          · rename_i amt hamt
            split
            · split
              · right; exact ⟨rfl, rfl⟩
              · split
                · right; exact ⟨rfl, rfl⟩
                · split
                  · left; rfl
                  · exfalso
                    rename_i hty hnheld hdisp hval
                    apply hval
                    have hcv : client.check_client_validity = true :=
                      MapList.allP_get _ _ _ _ hall hget
                    have hok : ft.stored_ok = true := MapList.allP_get _ _ _ _ hwf hft
                    have ha : 0 ≤ amt := by
                      simp only [Transaction.stored_ok, hamt, Bool.and_eq_true,
                        decide_eq_true_eq] at hok
                      exact hok.2
                    rw [check_client_validity_iff] at hcv ⊢
                    obtain ⟨h1, h2, h3, h4⟩ := hcv
                    have hnh := not_lt.mp hnheld
                    refine ⟨?_, ?_, ?_, ?_⟩ <;> simp <;> linarith
            · left; rfl

/-- Witness for C4 at a concrete input: withdrawal of 5 by an unseen
client on empty state. -/
theorem C4_unseen_client_withdrawal_witness :
    ClientPool.get_client [] 1 = none ∧
    (⟨TransactionType.Withdrawal, 1, 1, some 5, false⟩ : Transaction).tx_type =
      TransactionType.Withdrawal ∧
    (⟨TransactionType.Withdrawal, 1, 1, some 5, false⟩ : Transaction).amount = some 5 ∧
    (0 : ℤ) < 5 ∧
    TransactionTree.contains [] 1 = false ∧
    (processOne ⟨TransactionType.Withdrawal, 1, 1, some 5, false⟩ [] [] =
        (StepResult.failed "Error: Client does not have enough available balance to withdraw",
          ClientPool.add_client [] (Client.new 1), []) ∧
      (Client.new 1).available = 0 ∧ (Client.new 1).held = 0 ∧
      (Client.new 1).total = 0 ∧ (Client.new 1).locked = false) := by
  exact ⟨rfl, rfl, rfl, by decide, rfl,
    C4_unseen_client_withdrawal ⟨TransactionType.Withdrawal, 1, 1, some 5, false⟩ [] [] 5
      rfl rfl rfl (by decide) rfl⟩

/-- Counterexample to claim C2 as stated: a failing withdrawal for an
unseen client leaves the newly inserted client visible in the pool, so
the pool is not exactly as it was before the handler ran. -/
theorem C2_counterexample :
    (process_withdrawal ⟨TransactionType.Withdrawal, 1, 1, some 5, false⟩ []).1 ≠
      Except.ok () ∧
    (process_withdrawal ⟨TransactionType.Withdrawal, 1, 1, some 5, false⟩ []).2 ≠
      ([] : ClientPool) := by
  decide

/-- Claim C2 (amended): when a handler invoked by the engine fails on a
state satisfying the ledger and log invariants, the transaction log is
unchanged and the pool is unchanged except that a deposit or withdrawal
for an unseen client may leave behind the freshly created zero-balance
unlocked client. -/
theorem C2_error_frame (t : Transaction) (p : ClientPool) (tr : TransactionTree) (e : String)
    (hall : ClientPool.allValid p = true) (hwf : TransactionTree.wellFormed tr = true)
    (h : (processOne t p tr).1 = StepResult.failed e) :
    (processOne t p tr).2.2 = tr ∧
      ((processOne t p tr).2.1 = p ∨
        (ClientPool.get_client p t.client_id = none ∧
          (processOne t p tr).2.1 =
            ClientPool.add_client p (Client.new t.client_id))) := by
  by_cases hdup : (t.tx_type = TransactionType.Deposit ∨
      t.tx_type = TransactionType.Withdrawal) ∧
      TransactionTree.contains tr t.tx_id = true
  · exfalso
    simp only [processOne, if_pos hdup] at h
    exact StepResult.noConfusion h
  · simp only [processOne, if_neg hdup] at h ⊢
    rcases htype : t.tx_type with _ | _ | _ | _ | _
    · rcases hres : process_deposit t p with ⟨r, clients1⟩
      have hc1 : (process_deposit t p).2 = clients1 := by rw [hres]
      have h0 : (process_deposit t p).1 = r := by rw [hres]
      rcases r with e2 | u
      · refine ⟨rfl, ?_⟩
        rcases process_deposit_err_pool t p with hok | hpool
        · rw [h0] at hok
          exact absurd hok (by simp)
        · rw [hc1] at hpool
          rcases hev : ClientPool.get_client p t.client_id with _ | c0
          · right
            refine ⟨rfl, ?_⟩
            show clients1 = ClientPool.add_client p (Client.new t.client_id)
            rw [hpool]
            simp [ClientPool.ensure, ClientPool.has_client, hev]
          · left
            show clients1 = p
            rw [hpool]
            simp [ClientPool.ensure, ClientPool.has_client, hev]
      · rw [htype] at h
        rw [hres] at h
        simp at h
    · rcases hres : process_withdrawal t p with ⟨r, clients1⟩
      have hc1 : (process_withdrawal t p).2 = clients1 := by rw [hres]
      have h0 : (process_withdrawal t p).1 = r := by rw [hres]
      rcases r with e2 | u
      · refine ⟨rfl, ?_⟩
        rcases process_withdrawal_err_pool t p with hok | hpool
        · rw [h0] at hok
          exact absurd hok (by simp)
        · rw [hc1] at hpool
          rcases hev : ClientPool.get_client p t.client_id with _ | c0
          · right
            refine ⟨rfl, ?_⟩
            show clients1 = ClientPool.add_client p (Client.new t.client_id)
            rw [hpool]
            simp [ClientPool.ensure, ClientPool.has_client, hev]
          · left
            show clients1 = p
            rw [hpool]
            simp [ClientPool.ensure, ClientPool.has_client, hev]
      · rw [htype] at h
        rw [hres] at h
        simp at h
    · rcases hres : process_dispute t p tr with ⟨r, clients1, tree1⟩
      have hc1 : (process_dispute t p tr).2.1 = clients1 := by rw [hres]
      have ht1 : (process_dispute t p tr).2.2 = tree1 := by rw [hres]
      have h0 : (process_dispute t p tr).1 = r := by rw [hres]
      rcases r with e2 | u
      · rcases process_dispute_err_frame t p tr hall hwf with hok | ⟨hp, ht⟩
        · rw [h0] at hok
          exact absurd hok (by simp)
        · rw [hc1] at hp
          rw [ht1] at ht
          exact ⟨ht, Or.inl hp⟩
      · rw [htype] at h
        rw [hres] at h
        simp at h
    · rcases hres : process_resolve t p tr with ⟨r, clients1, tree1⟩
      have hc1 : (process_resolve t p tr).2.1 = clients1 := by rw [hres]
      have ht1 : (process_resolve t p tr).2.2 = tree1 := by rw [hres]
      have h0 : (process_resolve t p tr).1 = r := by rw [hres]
      rcases r with e2 | u
      · rcases process_resolve_err_frame t p tr hall hwf with hok | ⟨hp, ht⟩
        · rw [h0] at hok
          exact absurd hok (by simp)
        · rw [hc1] at hp
          rw [ht1] at ht
          exact ⟨ht, Or.inl hp⟩
      · rw [htype] at h
        rw [hres] at h
        simp at h
    · rcases hres : process_chargeback t p tr with ⟨r, clients1, tree1⟩
      have hc1 : (process_chargeback t p tr).2.1 = clients1 := by rw [hres]
      have ht1 : (process_chargeback t p tr).2.2 = tree1 := by rw [hres]
      have h0 : (process_chargeback t p tr).1 = r := by rw [hres]
      rcases r with e2 | u
      · rcases process_chargeback_err_frame t p tr hall hwf with hok | ⟨hp, ht⟩
        · rw [h0] at hok
          exact absurd hok (by simp)
        · rw [hc1] at hp
          rw [ht1] at ht
          exact ⟨ht, Or.inl hp⟩
      · rw [htype] at h
        rw [hres] at h
        simp at h

/-- Witness for C2 at a concrete input: the failing withdrawal of the
counterexample satisfies the amended frame. -/
theorem C2_error_frame_witness :
    ClientPool.allValid [] = true ∧
    TransactionTree.wellFormed [] = true ∧
    (processOne ⟨TransactionType.Withdrawal, 1, 1, some 5, false⟩ [] []).1 =
      StepResult.failed "Error: Client does not have enough available balance to withdraw" ∧
    ((processOne ⟨TransactionType.Withdrawal, 1, 1, some 5, false⟩ [] []).2.2 = [] ∧
      ((processOne ⟨TransactionType.Withdrawal, 1, 1, some 5, false⟩ [] []).2.1 = [] ∨
        (ClientPool.get_client [] 1 = none ∧
          (processOne ⟨TransactionType.Withdrawal, 1, 1, some 5, false⟩ [] []).2.1 =
            ClientPool.add_client [] (Client.new 1)))) := by
  have h : (processOne ⟨TransactionType.Withdrawal, 1, 1, some 5, false⟩ [] []).1 =
      StepResult.failed "Error: Client does not have enough available balance to withdraw" := by
    decide
  exact ⟨rfl, rfl, h,
    C2_error_frame ⟨TransactionType.Withdrawal, 1, 1, some 5, false⟩ [] [] _ rfl rfl h⟩

/-- Claim C8: process_dispute never inspects the in_dispute flag of the
referenced record: a second dispute of an already-disputed logged deposit
of amount a succeeds whenever the client exists, is unlocked, satisfies
the ledger invariant and has available ≥ a, and it again moves a from
available to held.  Dispute is therefore not idempotent. -/
theorem C8_double_dispute (t : Transaction) (p : ClientPool) (tr : TransactionTree)
    (c : Client) (ft : Transaction) (a : ℤ)
    (hc : ClientPool.get_client p t.client_id = some c)
    (hcv : c.check_client_validity = true)
    (hl : c.locked = false)
    (hft : TransactionTree.get tr t.tx_id = some ft)
    (hty : ft.tx_type = TransactionType.Deposit)
    (hamt : ft.amount = some a) (ha : 0 ≤ a)
    (hdisp : ft.in_dispute = true)
    (hav : a ≤ c.available) :
    process_dispute t p tr =
      (Except.ok (),
        ClientPool.setc p t.client_id
          { c with available := c.available - a, held := c.held + a },
        TransactionTree.sett tr t.tx_id { ft with in_dispute := true }) := by
  have hhas : ClientPool.has_client p t.client_id = true := by
    simp [ClientPool.has_client, hc]
  have hnl : ¬ (c.locked = true) := by simp [hl]
  have hnav : ¬ (c.available < a) := not_lt.mpr hav
  have hv1 : ({ c with available := c.available - a, held := c.held + a } :
      Client).check_client_validity = true := by
    rw [check_client_validity_iff] at hcv ⊢
    obtain ⟨h1, h2, h3, h4⟩ := hcv
    refine ⟨?_, ?_, ?_, ?_⟩ <;> simp <;> linarith
  have hv2 : ({ c with
      available := c.available - a,
      held := c.held + a,
      locked := false } : Client).check_client_validity = true := by
    rw [check_client_validity_iff]
    rw [check_client_validity_iff] at hcv
    obtain ⟨h1, h2, h3, h4⟩ := hcv
    refine ⟨?_, ?_, ?_, ?_⟩ <;> simp <;> linarith
  simp [process_dispute, hhas, hft, hc, hnl, hamt, hty, hnav, hv1, hv2]

/-- Witness for C8 at a concrete input: re-disputing an already disputed
deposit of 3. -/
theorem C8_double_dispute_witness :
    ClientPool.get_client [(1, (⟨1, 10, 3, 13, false⟩ : Client))] 1 =
      some (⟨1, 10, 3, 13, false⟩ : Client) ∧
    (⟨1, 10, 3, 13, false⟩ : Client).check_client_validity = true ∧
    (⟨1, 10, 3, 13, false⟩ : Client).locked = false ∧
    TransactionTree.get [(4, (⟨TransactionType.Deposit, 1, 4, some 3, true⟩ : Transaction))] 4 =
      some (⟨TransactionType.Deposit, 1, 4, some 3, true⟩ : Transaction) ∧
    (⟨TransactionType.Deposit, 1, 4, some 3, true⟩ : Transaction).tx_type =
      TransactionType.Deposit ∧
    (⟨TransactionType.Deposit, 1, 4, some 3, true⟩ : Transaction).amount = some 3 ∧
    (0 : ℤ) ≤ 3 ∧
    (⟨TransactionType.Deposit, 1, 4, some 3, true⟩ : Transaction).in_dispute = true ∧
    (3 : ℤ) ≤ (⟨1, 10, 3, 13, false⟩ : Client).available ∧
    process_dispute ⟨TransactionType.Dispute, 1, 4, none, false⟩
        [(1, ⟨1, 10, 3, 13, false⟩)]
        [(4, ⟨TransactionType.Deposit, 1, 4, some 3, true⟩)] =
      (Except.ok (),
        ClientPool.setc [(1, ⟨1, 10, 3, 13, false⟩)] 1
          { (⟨1, 10, 3, 13, false⟩ : Client) with
              available := (⟨1, 10, 3, 13, false⟩ : Client).available - 3,
              held := (⟨1, 10, 3, 13, false⟩ : Client).held + 3 },
        TransactionTree.sett [(4, ⟨TransactionType.Deposit, 1, 4, some 3, true⟩)] 4
          { (⟨TransactionType.Deposit, 1, 4, some 3, true⟩ : Transaction) with
              in_dispute := true }) := by
  have hc : ClientPool.get_client [(1, (⟨1, 10, 3, 13, false⟩ : Client))] 1 =
      some (⟨1, 10, 3, 13, false⟩ : Client) := by decide
  have hft : TransactionTree.get
      [(4, (⟨TransactionType.Deposit, 1, 4, some 3, true⟩ : Transaction))] 4 =
      some (⟨TransactionType.Deposit, 1, 4, some 3, true⟩ : Transaction) := by decide
  exact ⟨hc, by decide, rfl, hft, rfl, rfl, by decide, rfl, by decide,
    C8_double_dispute ⟨TransactionType.Dispute, 1, 4, none, false⟩ _ _ _ _ 3
      hc (by decide) rfl hft rfl rfl (by decide) rfl (by decide)⟩

/-- Anatomy of a successful dispute of a logged deposit: the client was
unlocked with sufficient available balance, the amount moved from
available to held, and the record was flagged in_dispute. -/
theorem process_dispute_ok_shape (t : Transaction) (p : ClientPool) (tr : TransactionTree)
    (c : Client) (ft : Transaction) (a : ℤ) (p1 : ClientPool) (tr1 : TransactionTree)
    (hc : ClientPool.get_client p t.client_id = some c)
    (hft : TransactionTree.get tr t.tx_id = some ft)
    (hty : ft.tx_type = TransactionType.Deposit)
    (hamt : ft.amount = some a)
    (hd : process_dispute t p tr = (Except.ok (), p1, tr1)) :
    c.locked = false ∧ ¬ (c.available < a) ∧
      p1 = ClientPool.setc p t.client_id
        { c with available := c.available - a, held := c.held + a } ∧
      tr1 = TransactionTree.sett tr t.tx_id { ft with in_dispute := true } := by
  have hhas : ClientPool.has_client p t.client_id = true := by
    simp [ClientPool.has_client, hc]
  simp only [process_dispute, hhas, hft, hc, hamt, hty, not_true, if_false,
    reduceCtorEq, if_true] at hd
  by_cases hlock : c.locked = true
  · rw [if_pos hlock] at hd
    simp at hd
  · rw [if_neg hlock] at hd
    by_cases hnav : c.available < a
    · rw [if_pos hnav] at hd
      simp at hd
    · rw [if_neg hnav] at hd
      by_cases hval : ({ c with available := c.available - a, held := c.held + a } :
          Client).check_client_validity = true
      · rw [if_pos hval] at hd
        simp only [Prod.mk.injEq] at hd
        refine ⟨by simpa using hlock, hnav, hd.2.1.symm, ?_⟩
        rw [hty, hamt]
        exact hd.2.2.symm
      · rw [if_neg hval] at hd
        simp at hd

/-- Claim C5: if a dispute of a logged deposit succeeds on a valid client
state, the immediately following resolve naming the same client and
tx_id succeeds, restores available and held to their pre-dispute values,
and clears the stored record's in_dispute flag. -/
theorem C5_dispute_resolve_roundtrip (d r : Transaction) (p : ClientPool)
    (tr : TransactionTree) (c : Client) (ft : Transaction) (a : ℤ)
    (p1 : ClientPool) (tr1 : TransactionTree)
    (hc : ClientPool.get_client p d.client_id = some c)
    (hcv : c.check_client_validity = true)
    (hft : TransactionTree.get tr d.tx_id = some ft)
    (hty : ft.tx_type = TransactionType.Deposit)
    (hamt : ft.amount = some a)
    (hd : process_dispute d p tr = (Except.ok (), p1, tr1))
    (hrc : r.client_id = d.client_id) (hrt : r.tx_id = d.tx_id) :
    (process_resolve r p1 tr1).1 = Except.ok () ∧
      Option.map Client.available
          (ClientPool.get_client (process_resolve r p1 tr1).2.1 d.client_id) =
        some c.available ∧
      Option.map Client.held
          (ClientPool.get_client (process_resolve r p1 tr1).2.1 d.client_id) =
        some c.held ∧
      Option.map Transaction.in_dispute
          (TransactionTree.get (process_resolve r p1 tr1).2.2 d.tx_id) =
        some false := by
  obtain ⟨hl, hnav, hp1, ht1⟩ :=
    process_dispute_ok_shape d p tr c ft a p1 tr1 hc hft hty hamt hd
  have hget1 : ClientPool.get_client p1 d.client_id =
      some { c with available := c.available - a, held := c.held + a } := by
    rw [hp1]
    exact MapList.get_set_self _ _ _ _ hc
  have hgetf1 : TransactionTree.get tr1 d.tx_id =
      some { ft with in_dispute := true } := by
    rw [ht1]
    exact MapList.get_set_self _ _ _ _ hft
  have hget1r : ClientPool.get_client p1 r.client_id =
      some { c with available := c.available - a, held := c.held + a } := by
    rw [hrc]; exact hget1
  have hgetf1r : TransactionTree.get tr1 r.tx_id =
      some { ft with in_dispute := true } := by
    rw [hrt]; exact hgetf1
  have hhas1 : ClientPool.has_client p1 r.client_id = true := by
    simp [ClientPool.has_client, hget1r]
  rw [check_client_validity_iff] at hcv
  obtain ⟨h1, h2, h3, h4⟩ := hcv
  have hnl : ¬ (({ c with available := c.available - a, held := c.held + a } :
      Client).locked = true) := by
    simp [hl]
  have hnheld : ¬ (({ c with available := c.available - a, held := c.held + a } :
      Client).held < a) := by
    simp
    linarith
  have hv2 : ({ c with available := c.available - a + a, held := c.held + a - a } :
      Client).check_client_validity = true := by
    rw [check_client_validity_iff]
    refine ⟨?_, ?_, ?_, ?_⟩ <;> simp <;> linarith
  have hv3 : ({ id := c.id, available := c.available, held := c.held, total := c.total, locked := false } : Client).check_client_validity = true := by
    rw [check_client_validity_iff]
    exact ⟨h1, h2, h3, h4⟩
  have hres : process_resolve r p1 tr1 =
      (Except.ok (),
        ClientPool.setc p1 r.client_id
          { c with available := c.available - a + a, held := c.held + a - a },
        TransactionTree.sett tr1 r.tx_id { ft with in_dispute := false }) := by
    simp [process_resolve, hhas1, hgetf1r, hget1r, hl, hamt, hty, hnheld, hv2, hv3]
  rw [hres]
  refine ⟨rfl, ?_, ?_, ?_⟩
  · have hg : ClientPool.get_client
        (ClientPool.setc p1 r.client_id
          { c with available := c.available - a + a, held := c.held + a - a })
        d.client_id =
        some { c with available := c.available - a + a, held := c.held + a - a } := by
      rw [hrc]
      exact MapList.get_set_self _ _ _ _ hget1
    rw [hg]
    simp
  · have hg : ClientPool.get_client
        (ClientPool.setc p1 r.client_id
          { c with available := c.available - a + a, held := c.held + a - a })
        d.client_id =
        some { c with available := c.available - a + a, held := c.held + a - a } := by
      rw [hrc]
      exact MapList.get_set_self _ _ _ _ hget1
    rw [hg]
    simp
  · have hg : TransactionTree.get
        (TransactionTree.sett tr1 r.tx_id { ft with in_dispute := false }) d.tx_id =
        some { ft with in_dispute := false } := by
      rw [hrt]
      exact MapList.get_set_self _ _ _ _ hgetf1
    rw [hg]
    simp

/-- Claim C6: after a successful dispute of a logged deposit of amount a
for an unlocked client with a valid ledger state, the chargeback naming
the same client and tx_id succeeds, decreases held and total by a, leaves
available unchanged, locks the client, and clears in_dispute on the
stored record. -/
theorem C6_dispute_chargeback (d ch : Transaction) (p : ClientPool)
    (tr : TransactionTree) (c c1 : Client) (ft : Transaction) (a : ℤ)
    (p1 : ClientPool) (tr1 : TransactionTree)
    (hc : ClientPool.get_client p d.client_id = some c)
    (hcv : c.check_client_validity = true)
    (hft : TransactionTree.get tr d.tx_id = some ft)
    (hty : ft.tx_type = TransactionType.Deposit)
    (hamt : ft.amount = some a)
    (hd : process_dispute d p tr = (Except.ok (), p1, tr1))
    (hc1 : ClientPool.get_client p1 d.client_id = some c1)
    (hl1 : c1.locked = false)
    (hcc : ch.client_id = d.client_id) (hct : ch.tx_id = d.tx_id) :
    (process_chargeback ch p1 tr1).1 = Except.ok () ∧
      Option.map Client.available
          (ClientPool.get_client (process_chargeback ch p1 tr1).2.1 d.client_id) =
        some c1.available ∧
      Option.map Client.held
          (ClientPool.get_client (process_chargeback ch p1 tr1).2.1 d.client_id) =
        some (c1.held - a) ∧
      Option.map Client.total
          (ClientPool.get_client (process_chargeback ch p1 tr1).2.1 d.client_id) =
        some (c1.total - a) ∧
      Option.map Client.locked
          (ClientPool.get_client (process_chargeback ch p1 tr1).2.1 d.client_id) =
        some true ∧
      Option.map Transaction.in_dispute
          (TransactionTree.get (process_chargeback ch p1 tr1).2.2 d.tx_id) =
        some false := by
  obtain ⟨hl, hnav, hp1, ht1⟩ :=
    process_dispute_ok_shape d p tr c ft a p1 tr1 hc hft hty hamt hd
  have hget1 : ClientPool.get_client p1 d.client_id =
      some { c with available := c.available - a, held := c.held + a } := by
    rw [hp1]
    exact MapList.get_set_self _ _ _ _ hc
  have hc1eq : c1 = { c with available := c.available - a, held := c.held + a } := by
    rw [hget1] at hc1
    exact (Option.some.inj hc1).symm
  have hgetf1 : TransactionTree.get tr1 d.tx_id =
      some { ft with in_dispute := true } := by
    rw [ht1]
    exact MapList.get_set_self _ _ _ _ hft
  have hget1r : ClientPool.get_client p1 ch.client_id =
      some { c with available := c.available - a, held := c.held + a } := by
    rw [hcc]; exact hget1
  have hgetf1r : TransactionTree.get tr1 ch.tx_id =
      some { ft with in_dispute := true } := by
    rw [hct]; exact hgetf1
  have hhas1 : ClientPool.has_client p1 ch.client_id = true := by
    simp [ClientPool.has_client, hget1r]
  rw [check_client_validity_iff] at hcv
  obtain ⟨h1, h2, h3, h4⟩ := hcv
  have hna : a ≤ c.available := not_lt.mp hnav
  have hnheld : ¬ (({ c with available := c.available - a, held := c.held + a } :
      Client).held < a) := by
    simp
    linarith
  have hv3 : ({ id := c.id, available := c.available - a, held := c.held, total := c.total - a, locked := true } : Client).check_client_validity = true := by
    rw [check_client_validity_iff]
    refine ⟨?_, ?_, ?_, ?_⟩ <;> simp <;> linarith
  have hres : process_chargeback ch p1 tr1 =
      (Except.ok (),
        ClientPool.setc p1 ch.client_id
          { id := c.id, available := c.available - a, held := c.held + a - a, total := c.total - a, locked := true },
        TransactionTree.sett tr1 ch.tx_id { ft with in_dispute := false }) := by
    simp [process_chargeback, hhas1, hgetf1r, hget1r, hl, hamt, hty, hnheld, hv3]
  rw [hres]
  have hg : ClientPool.get_client
      (ClientPool.setc p1 ch.client_id
        { id := c.id, available := c.available - a, held := c.held + a - a, total := c.total - a, locked := true })
      d.client_id =
      some ({ id := c.id, available := c.available - a, held := c.held + a - a, total := c.total - a, locked := true } : Client) := by
    rw [← hcc]
    exact MapList.get_set_self _ _ _ _ hget1r
  have hgt : TransactionTree.get
      (TransactionTree.sett tr1 ch.tx_id { ft with in_dispute := false }) d.tx_id =
      some { ft with in_dispute := false } := by
    rw [← hct]
    exact MapList.get_set_self _ _ _ _ hgetf1r
  refine ⟨rfl, ?_, ?_, ?_, ?_, ?_⟩
  · rw [hg, hc1eq]
    simp
  · rw [hg, hc1eq]
    simp
  · rw [hg, hc1eq]
    simp
  · rw [hg]
    simp
  · rw [hgt]
    simp

/-- Witness for C5 at a concrete input: deposit 20 disputed then resolved
(client 2, tx 4). -/
theorem C5_dispute_resolve_roundtrip_witness :
    ClientPool.get_client [(2, (⟨2, 20, 0, 20, false⟩ : Client))] 2 =
      some (⟨2, 20, 0, 20, false⟩ : Client) ∧
    (⟨2, 20, 0, 20, false⟩ : Client).check_client_validity = true ∧
    TransactionTree.get [(4, (⟨TransactionType.Deposit, 2, 4, some 20, false⟩ : Transaction))]
        4 = some (⟨TransactionType.Deposit, 2, 4, some 20, false⟩ : Transaction) ∧
    process_dispute ⟨TransactionType.Dispute, 2, 4, none, false⟩
        [(2, ⟨2, 20, 0, 20, false⟩)]
        [(4, ⟨TransactionType.Deposit, 2, 4, some 20, false⟩)] =
      (Except.ok (), [(2, ⟨2, 0, 20, 20, false⟩)],
        [(4, ⟨TransactionType.Deposit, 2, 4, some 20, true⟩)]) ∧
    ((process_resolve ⟨TransactionType.Resolve, 2, 4, none, false⟩
          [(2, ⟨2, 0, 20, 20, false⟩)]
          [(4, ⟨TransactionType.Deposit, 2, 4, some 20, true⟩)]).1 = Except.ok () ∧
      Option.map Client.available
          (ClientPool.get_client
            (process_resolve ⟨TransactionType.Resolve, 2, 4, none, false⟩
              [(2, ⟨2, 0, 20, 20, false⟩)]
              [(4, ⟨TransactionType.Deposit, 2, 4, some 20, true⟩)]).2.1 2) =
        some (⟨2, 20, 0, 20, false⟩ : Client).available ∧
      Option.map Client.held
          (ClientPool.get_client
            (process_resolve ⟨TransactionType.Resolve, 2, 4, none, false⟩
              [(2, ⟨2, 0, 20, 20, false⟩)]
              [(4, ⟨TransactionType.Deposit, 2, 4, some 20, true⟩)]).2.1 2) =
        some (⟨2, 20, 0, 20, false⟩ : Client).held ∧
      Option.map Transaction.in_dispute
          (TransactionTree.get
            (process_resolve ⟨TransactionType.Resolve, 2, 4, none, false⟩
              [(2, ⟨2, 0, 20, 20, false⟩)]
              [(4, ⟨TransactionType.Deposit, 2, 4, some 20, true⟩)]).2.2 4) =
        some false) := by
  have hc : ClientPool.get_client [(2, (⟨2, 20, 0, 20, false⟩ : Client))] 2 =
      some (⟨2, 20, 0, 20, false⟩ : Client) := by decide
  have hft : TransactionTree.get
      [(4, (⟨TransactionType.Deposit, 2, 4, some 20, false⟩ : Transaction))] 4 =
      some (⟨TransactionType.Deposit, 2, 4, some 20, false⟩ : Transaction) := by decide
  have hd : process_dispute ⟨TransactionType.Dispute, 2, 4, none, false⟩
      [(2, ⟨2, 20, 0, 20, false⟩)]
      [(4, ⟨TransactionType.Deposit, 2, 4, some 20, false⟩)] =
      (Except.ok (), [(2, ⟨2, 0, 20, 20, false⟩)],
        [(4, ⟨TransactionType.Deposit, 2, 4, some 20, true⟩)]) := by decide
  exact ⟨hc, by decide, hft, hd,
    C5_dispute_resolve_roundtrip ⟨TransactionType.Dispute, 2, 4, none, false⟩
      ⟨TransactionType.Resolve, 2, 4, none, false⟩ _ _ _ _ 20 _ _
      hc (by decide) hft rfl rfl hd rfl rfl⟩

/-- Witness for C6 at a concrete input: deposit 20 disputed then charged
back (client 2, tx 4). -/
theorem C6_dispute_chargeback_witness :
    ClientPool.get_client [(2, (⟨2, 20, 0, 20, false⟩ : Client))] 2 =
      some (⟨2, 20, 0, 20, false⟩ : Client) ∧
    (⟨2, 20, 0, 20, false⟩ : Client).check_client_validity = true ∧
    TransactionTree.get [(4, (⟨TransactionType.Deposit, 2, 4, some 20, false⟩ : Transaction))]
        4 = some (⟨TransactionType.Deposit, 2, 4, some 20, false⟩ : Transaction) ∧
    process_dispute ⟨TransactionType.Dispute, 2, 4, none, false⟩
        [(2, ⟨2, 20, 0, 20, false⟩)]
        [(4, ⟨TransactionType.Deposit, 2, 4, some 20, false⟩)] =
      (Except.ok (), [(2, ⟨2, 0, 20, 20, false⟩)],
        [(4, ⟨TransactionType.Deposit, 2, 4, some 20, true⟩)]) ∧
    ClientPool.get_client [(2, (⟨2, 0, 20, 20, false⟩ : Client))] 2 =
      some (⟨2, 0, 20, 20, false⟩ : Client) ∧
    (⟨2, 0, 20, 20, false⟩ : Client).locked = false ∧
    ((process_chargeback ⟨TransactionType.Chargeback, 2, 4, none, false⟩
          [(2, ⟨2, 0, 20, 20, false⟩)]
          [(4, ⟨TransactionType.Deposit, 2, 4, some 20, true⟩)]).1 = Except.ok () ∧
      Option.map Client.available
          (ClientPool.get_client
            (process_chargeback ⟨TransactionType.Chargeback, 2, 4, none, false⟩
              [(2, ⟨2, 0, 20, 20, false⟩)]
              [(4, ⟨TransactionType.Deposit, 2, 4, some 20, true⟩)]).2.1 2) =
        some (⟨2, 0, 20, 20, false⟩ : Client).available ∧
      Option.map Client.held
          (ClientPool.get_client
            (process_chargeback ⟨TransactionType.Chargeback, 2, 4, none, false⟩
              [(2, ⟨2, 0, 20, 20, false⟩)]
              [(4, ⟨TransactionType.Deposit, 2, 4, some 20, true⟩)]).2.1 2) =
        some ((⟨2, 0, 20, 20, false⟩ : Client).held - 20) ∧
      Option.map Client.total
          (ClientPool.get_client
            (process_chargeback ⟨TransactionType.Chargeback, 2, 4, none, false⟩
              [(2, ⟨2, 0, 20, 20, false⟩)]
              [(4, ⟨TransactionType.Deposit, 2, 4, some 20, true⟩)]).2.1 2) =
        some ((⟨2, 0, 20, 20, false⟩ : Client).total - 20) ∧
      Option.map Client.locked
          (ClientPool.get_client
            (process_chargeback ⟨TransactionType.Chargeback, 2, 4, none, false⟩
              [(2, ⟨2, 0, 20, 20, false⟩)]
              [(4, ⟨TransactionType.Deposit, 2, 4, some 20, true⟩)]).2.1 2) =
        some true ∧
      Option.map Transaction.in_dispute
          (TransactionTree.get
            (process_chargeback ⟨TransactionType.Chargeback, 2, 4, none, false⟩
              [(2, ⟨2, 0, 20, 20, false⟩)]
              [(4, ⟨TransactionType.Deposit, 2, 4, some 20, true⟩)]).2.2 4) =
        some false) := by
  have hc : ClientPool.get_client [(2, (⟨2, 20, 0, 20, false⟩ : Client))] 2 =
      some (⟨2, 20, 0, 20, false⟩ : Client) := by decide
  have hft : TransactionTree.get
      [(4, (⟨TransactionType.Deposit, 2, 4, some 20, false⟩ : Transaction))] 4 =
      some (⟨TransactionType.Deposit, 2, 4, some 20, false⟩ : Transaction) := by decide
  have hd : process_dispute ⟨TransactionType.Dispute, 2, 4, none, false⟩
      [(2, ⟨2, 20, 0, 20, false⟩)]
      [(4, ⟨TransactionType.Deposit, 2, 4, some 20, false⟩)] =
      (Except.ok (), [(2, ⟨2, 0, 20, 20, false⟩)],
        [(4, ⟨TransactionType.Deposit, 2, 4, some 20, true⟩)]) := by decide
  have hc1 : ClientPool.get_client [(2, (⟨2, 0, 20, 20, false⟩ : Client))] 2 =
      some (⟨2, 0, 20, 20, false⟩ : Client) := by decide
  exact ⟨hc, by decide, hft, hd, hc1, rfl,
    C6_dispute_chargeback ⟨TransactionType.Dispute, 2, 4, none, false⟩
      ⟨TransactionType.Chargeback, 2, 4, none, false⟩ _ _ _ _ _ 20 _ _
      hc (by decide) hft rfl rfl hd hc1 rfl rfl rfl⟩
